import Mathlib

/-!
Verification of the data-transformation pipeline of the SLS dashboard
(`src/app.py`): header normalization, numeric coercion, region lookups,
categorization, filtering, sorting/ranking and the per-kelurahan rollup.

The embedding is a direct translation of the pandas operations in
`load_data` and the view-building code into pure Lean functions over
lists of records.  Strings are handled through character-list helpers so
that every definition kernel-evaluates on concrete inputs.
-/

/-- ASCII whitespace recognised by Python `str.strip` / the regex class
`\s` (the model restricts to the ASCII range). -/
def isSpaceChar (c : Char) : Bool :=
  c = ' ' || c = '\t' || c = '\n' || c = '\r' || c.toNat = 11 || c.toNat = 12

/-- Lower-case one character, modelling Python `str.lower` on the ASCII
range. -/
def lowerChar (c : Char) : Char :=
  if 65 ≤ c.toNat && c.toNat ≤ 90 then Char.ofNat (c.toNat + 32) else c

/-- Model of Python `str.lower` (ASCII range). -/
def toLowerStr (s : String) : String := ⟨s.data.map lowerChar⟩

/-- Drop leading and trailing whitespace from a character list. -/
def trimChars (l : List Char) : List Char :=
  ((l.dropWhile isSpaceChar).reverse.dropWhile isSpaceChar).reverse

/-- Model of Python `str.strip`. -/
def trimStr (s : String) : String := ⟨trimChars s.data⟩

/-- Model of Python slicing `s[:n]` on strings (by characters). -/
def strTake (s : String) (n : Nat) : String := ⟨s.data.take n⟩

/-- Does the first character list start with the second? -/
def startsWithList : List Char → List Char → Bool
  | _, [] => true
  | [], _ :: _ => false
  | a :: as, b :: bs => decide (a = b) && startsWithList as bs

/-- Does `pat` occur as a contiguous run inside the second list? -/
def subOccurs (pat : List Char) : List Char → Bool
  | [] => pat.isEmpty
  | a :: as => startsWithList (a :: as) pat || subOccurs pat as

/-- `containsSubstr hay pat` models pandas `hay.str.contains(pat)` ONLY
for patterns that carry no regex metacharacter: pandas compiles the
pattern as a regular expression (`regex=True` by default), and a
metacharacter-free pattern is exactly a literal substring search.
Statements about the search filter are therefore scoped by
`isLiteralPattern` below; for metacharacter patterns (`.` matching any
character, `(` raising `re.error`, ...) this model says nothing. -/
def containsSubstr (hay pat : String) : Bool := subOccurs pat.data hay.data

/-- The metacharacters of Python `re` (123 and 125 are the two curly
braces). -/
def isRegexMeta (c : Char) : Bool :=
  c = '.' || c = '^' || c = '$' || c = '*' || c = '+' || c = '?' ||
    c.toNat = 123 || c.toNat = 125 || c = '[' || c = ']' || c = '\\' ||
    c = '|' || c = '(' || c = ')'

/-- A pattern pandas treats as a literal substring: no regex
metacharacter occurs in it.  (Trimming and lowercasing never introduce
a metacharacter, so a literal query stays literal inside the filter.) -/
def isLiteralPattern (s : String) : Bool := s.data.all (fun c => !isRegexMeta c)

/-- Decimal value of a digit list (most significant first). -/
def natOfDigits (l : List Char) : Nat :=
  l.foldl (fun acc c => acc * 10 + (c.toNat - 48)) 0

/-- Model of `pd.to_numeric` on a string cell, restricted to
optionally-signed decimal-integer literals (surrounding whitespace
tolerated); anything else fails to parse. -/
def parseIntStr (s : String) : Option Int :=
  let l := trimChars s.data
  match l with
  | '-' :: ds =>
      if ds ≠ [] ∧ ds.all Char.isDigit then some (-(natOfDigits ds : Int)) else none
  | '+' :: ds =>
      if ds ≠ [] ∧ ds.all Char.isDigit then some (natOfDigits ds : Int) else none
  | ds =>
      if ds ≠ [] ∧ ds.all Char.isDigit then some (natOfDigits ds : Int) else none

/-- One spreadsheet cell: a number, a text, or an empty (NaN) cell. -/
inductive Cell where
  | num (n : Int)
  | text (s : String)
  | blank
deriving DecidableEq

/-- Python `str(...)` applied to a cell (`astype(str)`); a missing cell
stringifies to `"nan"` as pandas does. -/
def cellToStr : Cell → String
  | .num n => toString n
  | .text s => s
  | .blank => "nan"

/-- `pd.to_numeric(column, errors="coerce")` on one cell: `none` is the
NaN produced for unparseable values. -/
def toNumeric : Cell → Option Int
  | .num n => some n
  | .text s => parseIntStr s
  | .blank => none

/-- `.fillna(0).astype(int)` after coercion: failed parses become 0. -/
def coerce (c : Cell) : Int := (toNumeric c).getD 0

/-- A raw spreadsheet row after column renaming: the five canonical cells. -/
structure RawRow where
  id_cell : Cell
  nama_cell : Cell
  plkumkm_cell : Cell
  kdm_cell : Cell
  selisih_cell : Cell
deriving DecidableEq

/-- One row of the enriched table produced by `load_data`. -/
structure Row where
  id_sls : String
  nama_sls : String
  plkumkm : Int
  kdm : Int
  selisih : Int
  parsed_id : Option String
  kecamatan : Option String
  kelurahan : Option String
  kategori : String
deriving DecidableEq

/-- Header-synonym table `COLMAP` from `src/app.py`. -/
def COLMAP : List (String × String) :=
  [("id sls", "id_sls"), ("id_sls", "id_sls"), ("idsls", "id_sls"), ("id", "id_sls"),
   ("nama sls", "nama_sls"), ("nama_sls", "nama_sls"), ("nama", "nama_sls"),
   ("jumlah usaha plkumkm", "plkumkm"), ("plkumkm", "plkumkm"), ("jumlah plkumkm", "plkumkm"),
   ("jumlah usaha kdm", "kdm"), ("kdm", "kdm"), ("jumlah kdm", "kdm"),
   ("selisih jumlah usaha", "selisih"), ("selisih", "selisih")]

/-- The five required canonical fields. -/
def REQUIRED : List String := ["id_sls", "nama_sls", "plkumkm", "kdm", "selisih"]

/-- `KECAMATAN_MAP` from `src/app.py`. -/
def KECAMATAN_MAP : List (String × String) :=
  [("3576010", "Prajurit Kulon"), ("3576020", "Magersari"), ("3576021", "Kranggan")]

/-- `KELURAHAN_MAP` from `src/app.py`. -/
def KELURAHAN_MAP : List (String × String) :=
  [("3576010001", "Surodinawan"), ("3576010004", "Prajuritkulon"), ("3576010005", "Blooto"),
   ("3576010006", "Mentikan"), ("3576010007", "Kauman"), ("3576010008", "Pulorejo"),
   ("3576020002", "Gunung Gedangan"), ("3576020003", "Kedundung"), ("3576020004", "Balongsari"),
   ("3576020008", "Gedongan"), ("3576020009", "Magersari"), ("3576020010", "Wates"),
   ("3576021004", "Miji"), ("3576021001", "Kranggan"), ("3576021006", "Purwotengah"),
   ("3576021005", "Sentanan"), ("3576021003", "Jagalan"), ("3576021002", "Meri")]

/-- Dictionary lookup (`dict.get` / `Series.map` on a dict). -/
def lookupMap (m : List (String × String)) (k : String) : Option String :=
  (m.find? (fun e => decide (e.1 = k))).map (fun e => e.2)

/-- `str(c).strip().lower()` applied to one header. -/
def normalizeHeader (h : String) : String := toLowerStr (trimStr h)

/-- The canonical column names obtained from the input headers after
normalization and synonym mapping (unrecognised headers dropped). -/
def mappedCols (headers : List String) : List String :=
  (headers.map normalizeHeader).filterMap (lookupMap COLMAP)

/-- The required canonical fields absent after mapping (`missing`). -/
def missingCols (headers : List String) : List String :=
  REQUIRED.filter (fun c => !(mappedCols headers).contains c)

/-- The schema-validation error raised by `load_data` (the `ValueError`
message carries the missing list and the full required set). -/
structure SchemaError where
  missing : List String
  required : List String
deriving DecidableEq

/-- `df["nama_sls"].astype(str).str.extract(r"^\s*\[?(\d+)\]?")`: skip
leading whitespace, at most one `[`, then capture the leading digit run;
no digits means NaN (`none`). -/
def parsedIdOf (nama : String) : Option String :=
  let l := nama.data.dropWhile isSpaceChar
  let l2 := match l with
    | '[' :: rest => rest
    | _ => l
  let ds := l2.takeWhile Char.isDigit
  if ds.isEmpty then none else some ⟨ds⟩

/-- `df["id_sls"].str[:7].map(KECAMATAN_MAP)`. -/
def kecamatanOf (id_sls : String) : Option String :=
  lookupMap KECAMATAN_MAP (strTake id_sls 7)

/-- `df["id_sls"].str[:10].map(KELURAHAN_MAP)`. -/
def kelurahanOf (id_sls : String) : Option String :=
  lookupMap KELURAHAN_MAP (strTake id_sls 10)

/-- `np.select(conds, choices, default)` on one row: the first true
condition's choice, else the default. -/
def npSelect : List (Bool × String) → String → String
  | [], d => d
  | (c, v) :: rest, d => if c then v else npSelect rest d

/-- The `kategori` column of `load_data`: `np.select` over the sign of
`selisih` with default `"Kuning (Match)"`. -/
def kategoriOf (selisih : Int) : String :=
  npSelect
    [(decide (selisih < 0), "Hijau (Over/Bagus)"),
     (decide (selisih = 0), "Kuning (Match)"),
     (decide (selisih > 0), "Merah (Kurang)")]
    "Kuning (Match)"

/-- The per-row enrichment performed by `load_data` after the schema
check: numeric coercion, `parsed_id` extraction, `id_sls`
stringification, region lookups and categorization. -/
def enrichRow (r : RawRow) : Row :=
  let idStr := cellToStr r.id_cell
  let namaStr := cellToStr r.nama_cell
  let se := coerce r.selisih_cell
  { id_sls := idStr
    nama_sls := namaStr
    plkumkm := coerce r.plkumkm_cell
    kdm := coerce r.kdm_cell
    selisih := se
    parsed_id := parsedIdOf namaStr
    kecamatan := kecamatanOf idStr
    kelurahan := kelurahanOf idStr
    kategori := kategoriOf se }

/-- `load_data`: normalize/rename headers, validate the required fields
(raising a `SchemaError` when some are missing), then enrich every row. -/
def load_data (headers : List String) (rows : List RawRow) :
    Except SchemaError (List Row) :=
  if (missingCols headers).isEmpty then
    Except.ok (rows.map enrichRow)
  else
    Except.error ⟨missingCols headers, REQUIRED⟩

/-- The filter parameters of one interaction (`FilterSpec`): search box
`q`, the category multiselect, the kecamatan selectbox (`"(Semua)"` is
the all-sentinel) and the kelurahan multiselect. -/
structure FilterSpec where
  q : String
  kategori_pilihan : List String
  kecamatan_pilihan : String
  kelurahan_pilihan : List String
deriving DecidableEq

/-- The three-way search predicate of the detail view: `s` (the trimmed,
lowered query) against lowered `nama_sls`, raw `id_sls`, and `parsed_id`
with NaN filled by `""`. -/
def searchPred (s : String) (r : Row) : Bool :=
  containsSubstr (toLowerStr r.nama_sls) s || containsSubstr r.id_sls s ||
    containsSubstr (r.parsed_id.getD "") s

/-- `if q: s = q.strip().lower(); view = view[...contains(s)...]` — an
empty query skips the filter. -/
def applySearch (q : String) (l : List Row) : List Row :=
  if q = "" then l else l.filter (searchPred (toLowerStr (trimStr q)))

/-- `if kategori_pilihan: view = view[view["kategori"].isin(...)]` — an
empty (falsy) selection skips the filter. -/
def applyKategori (cats : List String) (l : List Row) : List Row :=
  if cats.isEmpty then l else l.filter (fun r => decide (r.kategori ∈ cats))

/-- `if kecamatan_pilihan != "(Semua)": view = view[view["kecamatan"] ==
kecamatan_pilihan]` — an absent (NaN) kecamatan never equals the choice. -/
def applyKecamatan (kec : String) (l : List Row) : List Row :=
  if kec = "(Semua)" then l else l.filter (fun r => decide (r.kecamatan = some kec))

/-- `if kelurahan_pilihan: view = view[view["kelurahan"].isin(...)]` —
the options come from a `dropna()`, so an absent kelurahan never matches. -/
def applyKelurahan (kels : List String) (l : List Row) : List Row :=
  if kels.isEmpty then l
  else l.filter (fun r =>
    match r.kelurahan with
    | some k => decide (k ∈ kels)
    | none => false)

/-- The first `view` of the script (lines 186-190): only the sidebar
region filters are applied; this is the input of the kelurahan rollup. -/
def applyRegionFilters (spec : FilterSpec) (df : List Row) : List Row :=
  applyKelurahan spec.kelurahan_pilihan (applyKecamatan spec.kecamatan_pilihan df)

/-- The rebuilt `view` of lines 373-386 feeding the detail table: search,
category, kecamatan, kelurahan, in the order of the source. -/
def detailView (spec : FilterSpec) (df : List Row) : List Row :=
  applyKelurahan spec.kelurahan_pilihan
    (applyKecamatan spec.kecamatan_pilihan
      (applyKategori spec.kategori_pilihan (applySearch spec.q df)))

/-- `a` strictly precedes `b` in the chosen sort direction of the
`selisih` key. -/
def keyLt (asc : Bool) (a b : Int) : Bool :=
  if asc then decide (a < b) else decide (b < a)

/-- Insert into a list sorted in the chosen direction, before the first
element it does not strictly follow. -/
def insertByKey (key : α → Int) (asc : Bool) (x : α) : List α → List α
  | [] => [x]
  | y :: ys =>
      if keyLt asc (key y) (key x) then y :: insertByKey key asc x ys
      else x :: y :: ys

/-- Comparison sort by an `Int` key in the chosen direction, modelling
`sort_values("selisih", ascending=...)` (tie order is irrelevant to the
stated properties). -/
def sortByKey (key : α → Int) (asc : Bool) : List α → List α
  | [] => []
  | x :: xs => insertByKey key asc x (sortByKey key asc xs)

/-- Sorting a bare `selisih` column. -/
def sortColumn (asc : Bool) (l : List Int) : List Int := sortByKey (fun v => v) asc l

/-- pandas `Series.rank(method="min", ascending=asc)` of the value `v`
within column `l`: one plus the number of entries strictly preceding `v`
in the chosen direction. -/
def rankMin (asc : Bool) (l : List Int) (v : Int) : Nat :=
  l.countP (fun w => keyLt asc w v) + 1

/-- The whole rank column of `l`. -/
def ranksOf (asc : Bool) (l : List Int) : List Nat := l.map (rankMin asc l)

/-- Lines 389-391: sort the view by `selisih`, then rank the sorted
`selisih` column with method `"min"` in the same direction. -/
def rankingSelisih (asc : Bool) (col : List Int) : List Nat :=
  ranksOf asc (sortColumn asc col)

/-- First-occurrence deduplication with an accumulator of already-seen
keys. -/
def dedupAux (seen : List String) : List String → List String
  | [] => []
  | x :: xs =>
      if x ∈ seen then dedupAux seen xs else x :: dedupAux (x :: seen) xs

/-- The distinct group keys of `view.groupby("kelurahan")`: the distinct
non-absent kelurahan values (pandas drops NaN groups). -/
def kelKeys (l : List Row) : List String := dedupAux [] (l.filterMap (fun r => r.kelurahan))

/-- One row of the `kel_summary` rollup before ranking. -/
structure KelRow where
  kelurahan : String
  plkumkm : Int
  kdm : Int
  selisih : Int
  jumlah_sls : Nat
deriving DecidableEq

/-- The aggregate of one kelurahan group: sums of `plkumkm`, `kdm`,
`selisih` and the row count (`id_sls: "count"`). -/
def aggKel (l : List Row) (k : String) : KelRow :=
  let grp := l.filter (fun r => decide (r.kelurahan = some k))
  { kelurahan := k
    plkumkm := (grp.map Row.plkumkm).sum
    kdm := (grp.map Row.kdm).sum
    selisih := (grp.map Row.selisih).sum
    jumlah_sls := grp.length }

/-- The grouped table `view.groupby("kelurahan").agg(...)`. -/
def kelAgg (l : List Row) : List KelRow := (kelKeys l).map (aggKel l)

/-- Lines 301-317: group, aggregate, sort by the summed `selisih` in the
chosen direction, and attach the `"min"`-method rank of each summed
`selisih`. -/
def kelSummary (asc : Bool) (l : List Row) : List (KelRow × Nat) :=
  let g := sortByKey KelRow.selisih asc (kelAgg l)
  g.map (fun kr => (kr, rankMin asc (g.map KelRow.selisih) kr.selisih))

/-- The rollup as the application computes it: over the region-filtered
view of lines 186-190. -/
def appRollup (asc : Bool) (spec : FilterSpec) (df : List Row) : List (KelRow × Nat) :=
  kelSummary asc (applyRegionFilters spec df)

/-- The rollup as the spec sentence of C4 words it, for comparison: over
the records the detail table is built from. -/
def kelSummaryOfDetailView (asc : Bool) (spec : FilterSpec) (df : List Row) :
    List (KelRow × Nat) :=
  kelSummary asc (detailView spec df)

/- ===== helper lemmas ===== -/

theorem keyLt_irrefl (asc : Bool) (a : Int) : keyLt asc a a = false := by
  cases asc <;> simp [keyLt]

theorem keyLt_asymm {asc : Bool} {a b : Int} (h : keyLt asc a b = true) :
    keyLt asc b a = false := by
  cases asc <;> simp_all [keyLt] <;> omega

theorem keyLt_trans {asc : Bool} {a b c : Int} (h1 : keyLt asc a b = true)
    (h2 : keyLt asc b c = true) : keyLt asc a c = true := by
  cases asc <;> simp_all [keyLt] <;> omega

theorem keyLt_false_trans {asc : Bool} {a b c : Int} (h1 : keyLt asc a b = false)
    (h2 : keyLt asc b c = false) : keyLt asc a c = false := by
  cases asc <;> simp_all [keyLt] <;> omega

theorem keyLt_trichotomy {asc : Bool} {a b : Int} (h : a ≠ b) :
    keyLt asc a b = true ∨ keyLt asc b a = true := by
  cases asc <;> simp_all [keyLt] <;> omega

theorem countP_mono_pred {α : Type} {p q : α → Bool}
    (h : ∀ a, p a = true → q a = true) (l : List α) : l.countP p ≤ l.countP q := by
  induction l with
  | nil => simp
  | cons a t ih =>
      rw [List.countP_cons, List.countP_cons]
      by_cases hp : p a = true
      · rw [hp, h a hp]; omega
      · have hp' : p a = false := by simpa using hp
        rw [hp']
        by_cases hq : q a = true
        · rw [hq]; simp; omega
        · have hq' : q a = false := by simpa using hq
          rw [hq']; simpa using ih

theorem countP_lt_pred {α : Type} {p q : α → Bool}
    (h : ∀ a, p a = true → q a = true) {x : α} {l : List α} (hx : x ∈ l)
    (hq : q x = true) (hp : p x = false) : l.countP p < l.countP q := by
  induction l with
  | nil => cases hx
  | cons a t ih =>
      rw [List.countP_cons, List.countP_cons]
      rcases List.mem_cons.mp hx with rfl | hxt
      · rw [hp, hq]
        have := countP_mono_pred h t
        simp; omega
      · have hlt := ih hxt
        by_cases hpa : p a = true
        · rw [hpa, h a hpa]; omega
        · have hpa' : p a = false := by simpa using hpa
          rw [hpa']
          by_cases hqa : q a = true
          · rw [hqa]; simp; omega
          · have hqa' : q a = false := by simpa using hqa
            rw [hqa']; simpa using hlt

theorem countP_lt_len {α : Type} {p : α → Bool} {x : α} {l : List α}
    (hx : x ∈ l) (hp : p x = false) : l.countP p < l.length := by
  induction l with
  | nil => cases hx
  | cons a t ih =>
      rw [List.countP_cons, List.length_cons]
      rcases List.mem_cons.mp hx with rfl | hxt
      · rw [hp]
        have h2 : t.countP p ≤ t.length := List.countP_le_length p
        simp; omega
      · have := ih hxt
        by_cases hpa : p a = true
        · rw [hpa]; simp; omega
        · have hpa' : p a = false := by simpa using hpa
          rw [hpa']; simp; omega

theorem insertByKey_perm {α : Type} (key : α → Int) (asc : Bool) (x : α) (l : List α) :
    List.Perm (insertByKey key asc x l) (x :: l) := by
  induction l with
  | nil => simp [insertByKey]
  | cons y ys ih =>
      rw [insertByKey]
      by_cases h : keyLt asc (key y) (key x) = true
      · rw [if_pos h]
        exact (ih.cons y).trans (List.Perm.swap x y ys)
      · rw [if_neg h]

theorem sortByKey_perm {α : Type} (key : α → Int) (asc : Bool) (l : List α) :
    List.Perm (sortByKey key asc l) l := by
  induction l with
  | nil => simp [sortByKey]
  | cons x xs ih =>
      rw [sortByKey]
      exact (insertByKey_perm key asc x (sortByKey key asc xs)).trans (ih.cons x)

/-- Sortedness in the chosen direction: no later element strictly
precedes an earlier one. -/
def SortedKey {α : Type} (key : α → Int) (asc : Bool) (l : List α) : Prop :=
  l.Pairwise (fun a b => keyLt asc (key b) (key a) = false)

theorem insertByKey_sorted {α : Type} {key : α → Int} {asc : Bool} (x : α) {l : List α}
    (h : SortedKey key asc l) : SortedKey key asc (insertByKey key asc x l) := by
  induction l with
  | nil => simp [insertByKey, SortedKey]
  | cons y ys ih =>
      rw [SortedKey, List.pairwise_cons] at h
      obtain ⟨hy, hys⟩ := h
      rw [insertByKey]
      by_cases hc : keyLt asc (key y) (key x) = true
      · rw [if_pos hc]
        rw [SortedKey, List.pairwise_cons]
        refine ⟨?_, ih hys⟩
        intro z hz
        have hz' : z ∈ x :: ys := (insertByKey_perm key asc x ys).mem_iff.mp hz
        rcases List.mem_cons.mp hz' with rfl | hzys
        · exact keyLt_asymm hc
        · exact hy z hzys
      · rw [if_neg hc]
        have hc' : keyLt asc (key y) (key x) = false := by simpa using hc
        rw [SortedKey, List.pairwise_cons]
        refine ⟨?_, List.pairwise_cons.mpr ⟨hy, hys⟩⟩
        intro z hz
        rcases List.mem_cons.mp hz with rfl | hzys
        · exact hc'
        · exact keyLt_false_trans (hy z hzys) hc'

theorem sortByKey_sorted {α : Type} (key : α → Int) (asc : Bool) (l : List α) :
    SortedKey key asc (sortByKey key asc l) := by
  induction l with
  | nil => simp [sortByKey, SortedKey]
  | cons x xs ih =>
      rw [sortByKey]
      exact insertByKey_sorted x ih

theorem dedupAux_mem {x : String} :
    ∀ (seen l : List String), x ∈ dedupAux seen l ↔ x ∈ l ∧ x ∉ seen := by
  intro seen l
  induction l generalizing seen with
  | nil => simp [dedupAux]
  | cons a t ih =>
      rw [dedupAux]
      by_cases ha : a ∈ seen
      · rw [if_pos ha, ih]
        constructor
        · rintro ⟨hxt, hxs⟩
          exact ⟨List.mem_cons_of_mem a hxt, hxs⟩
        · rintro ⟨hxat, hxs⟩
          rcases List.mem_cons.mp hxat with rfl | hxt
          · exact absurd ha hxs
          · exact ⟨hxt, hxs⟩
      · rw [if_neg ha]
        constructor
        · intro hx
          rcases List.mem_cons.mp hx with rfl | hx2
          · exact ⟨List.mem_cons_self x t, ha⟩
          · have := (ih (a :: seen)).mp hx2
            obtain ⟨hxt, hxs⟩ := this
            refine ⟨List.mem_cons_of_mem a hxt, fun hc => hxs (List.mem_cons_of_mem a hc)⟩
        · rintro ⟨hxat, hxs⟩
          rcases List.mem_cons.mp hxat with rfl | hxt
          · exact List.mem_cons_self x _
          · by_cases hxa : x = a
            · subst hxa; exact List.mem_cons_self x _
            · refine List.mem_cons_of_mem a ((ih (a :: seen)).mpr ⟨hxt, ?_⟩)
              intro hc
              rcases List.mem_cons.mp hc with h1 | h2
              · exact hxa h1
              · exact hxs h2

theorem filter_swap {α : Type} (p q : α → Bool) (l : List α) :
    (l.filter p).filter q = (l.filter q).filter p := by
  induction l with
  | nil => rfl
  | cons a t ih =>
      by_cases hp : p a = true <;> by_cases hq : q a = true <;>
        simp [List.filter_cons, hp, hq, ih]

theorem kategoriOf_spec (s : Int) :
    (kategoriOf s = "Hijau (Over/Bagus)" ↔ s < 0)
    ∧ (kategoriOf s = "Kuning (Match)" ↔ s = 0)
    ∧ (kategoriOf s = "Merah (Kurang)" ↔ 0 < s) := by
  rcases Int.lt_trichotomy s 0 with h | h | h
  · have h1 : decide (s < 0) = true := by simpa using h
    refine ⟨?_, ?_, ?_⟩ <;> simp [kategoriOf, npSelect, h1] <;> omega
  · subst h
    refine ⟨?_, ?_, ?_⟩ <;> simp [kategoriOf, npSelect]
  · have h1 : decide (s < 0) = false := by simp; omega
    have h2 : decide (s = 0) = false := by simp; omega
    have h3 : decide (s > 0) = true := by simpa using h
    refine ⟨?_, ?_, ?_⟩ <;> simp [kategoriOf, npSelect, h1, h2, h3] <;> omega

theorem rankMin_inj {asc : Bool} {l : List Int} {v w : Int} (hv : v ∈ l) (hw : w ∈ l) :
    rankMin asc l v = rankMin asc l w ↔ v = w := by
  constructor
  · intro h
    by_contra hne
    rcases @keyLt_trichotomy asc v w hne with hlt | hlt
    · have : l.countP (fun u => keyLt asc u v) < l.countP (fun u => keyLt asc u w) := by
        refine countP_lt_pred (fun a ha => keyLt_trans ha hlt) hv hlt (keyLt_irrefl asc v)
      rw [rankMin, rankMin] at h
      omega
    · have : l.countP (fun u => keyLt asc u w) < l.countP (fun u => keyLt asc u v) := by
        refine countP_lt_pred (fun a ha => keyLt_trans ha hlt) hw hlt (keyLt_irrefl asc w)
      rw [rankMin, rankMin] at h
      omega
  · rintro rfl; rfl

theorem rankMin_bounds {asc : Bool} {l : List Int} {v : Int} (hv : v ∈ l) :
    1 ≤ rankMin asc l v ∧ rankMin asc l v ≤ l.length := by
  constructor
  · rw [rankMin]; omega
  · have := @countP_lt_len Int (fun u => keyLt asc u v) v l hv (keyLt_irrefl asc v)
    rw [rankMin]; omega

theorem rankMin_eq_findIdx {asc : Bool} {l : List Int}
    (hs : SortedKey (fun v => v) asc l) {v : Int} (hv : v ∈ l) :
    rankMin asc l v = l.findIdx (fun u => decide (u = v)) + 1 := by
  rw [rankMin]
  congr 1
  induction l with
  | nil => cases hv
  | cons x t ih =>
      rw [SortedKey, List.pairwise_cons] at hs
      obtain ⟨hx, ht⟩ := hs
      by_cases hxv : x = v
      · subst hxv
        have h0 : List.findIdx (fun u => decide (u = x)) (x :: t) = 0 := by
          rw [List.findIdx_cons]; simp
        rw [h0]
        rw [List.countP_cons]
        have hxx : keyLt asc x x = false := keyLt_irrefl asc x
        have hct : t.countP (fun w => keyLt asc w x) = 0 := by
          rw [List.countP_eq_zero]
          intro a ha
          simpa using hx a ha
        simp [hct, hxx]
      · have hvt : v ∈ t := by
          rcases List.mem_cons.mp hv with rfl | h
          · exact absurd rfl hxv
          · exact h
        have hxlt : keyLt asc x v = true := by
          have h1 : keyLt asc v x = false := hx v hvt
          rcases @keyLt_trichotomy asc x v hxv with h2 | h2
          · exact h2
          · rw [h1] at h2; cases h2
        rw [List.countP_cons, List.findIdx_cons]
        have : (decide (x = v)) = false := by simpa using hxv
        rw [this]
        simp only [cond_false]
        rw [hxlt, ih ht hvt]
        simp

/-- Membership characterisation of `lookupMap`. -/
theorem lookupMap_isSome (m : List (String × String)) (k : String) :
    (lookupMap m k).isSome ↔ k ∈ m.map Prod.fst := by
  induction m with
  | nil => simp [lookupMap]
  | cons a t ih =>
      rw [lookupMap] at ih ⊢
      by_cases h : a.1 = k
      · simp [List.find?, h]
      · have hd : (decide (a.1 = k)) = false := by simpa using h
        simp only [List.map_cons, List.mem_cons]
        simp [List.find?, hd, ih]
        intro hk
        exact absurd hk.symm h

/-- The scenario row of the spec (C8): `area_id "3576010001"`,
`area_name "[12] Foo"`, counts 10 and 8, difference provided as -2. -/
def rawScenario : RawRow :=
  ⟨Cell.text "3576010001", Cell.text "[12] Foo", Cell.num 10, Cell.num 8, Cell.num (-2)⟩

/-- A schema-valid header list. -/
def headers0 : List String := ["id sls", "nama sls", "plkumkm", "kdm", "selisih"]

/- ===== claim theorems ===== -/

/-- C1: for every loaded table and every row in it, the enriched
record's `kategori` is determined exactly by the sign of `selisih`:
negative gives "Hijau (Over/Bagus)", zero gives "Kuning (Match)",
positive gives "Merah (Kurang)", and no other label is ever assigned. -/
theorem c1_category_sign : ∀ (headers : List String) (rows : List RawRow) (t : List Row),
    load_data headers rows = Except.ok t → ∀ r, r ∈ t →
      ((r.kategori = "Hijau (Over/Bagus)" ↔ r.selisih < 0)
       ∧ (r.kategori = "Kuning (Match)" ↔ r.selisih = 0)
       ∧ (r.kategori = "Merah (Kurang)" ↔ 0 < r.selisih)
       ∧ (r.kategori = "Hijau (Over/Bagus)" ∨ r.kategori = "Kuning (Match)"
          ∨ r.kategori = "Merah (Kurang)")) := by
  intro headers rows t hload r hr
  rw [load_data] at hload
  by_cases hm : (missingCols headers).isEmpty = true
  · rw [if_pos hm] at hload
    injection hload with h
    subst h
    obtain ⟨raw, _, rfl⟩ := List.mem_map.mp hr
    have hk : (enrichRow raw).kategori = kategoriOf ((enrichRow raw).selisih) := rfl
    obtain ⟨h1, h2, h3⟩ := kategoriOf_spec ((enrichRow raw).selisih)
    rw [hk]
    refine ⟨h1, h2, h3, ?_⟩
    rcases Int.lt_trichotomy ((enrichRow raw).selisih) 0 with h | h | h
    · exact Or.inl (h1.mpr h)
    · exact Or.inr (Or.inl (h2.mpr h))
    · exact Or.inr (Or.inr (h3.mpr h))
  · rw [if_neg hm] at hload
    cases hload

/-- Witness for C1 at the scenario row (difference -2 gives the Over
label). -/
theorem c1_category_sign_witness : (enrichRow rawScenario).kategori = "Hijau (Over/Bagus)" :=
  ((c1_category_sign headers0 [rawScenario] ([rawScenario].map enrichRow) rfl
      (enrichRow rawScenario) (by decide)).1).mpr (by decide)

/-- C10: after integer coercion, `selisih` satisfies exactly one of the
three sign conditions, so the `np.select` default branch is unreachable
(the result does not depend on the default) and every row gets one of
the three explicit labels. -/
theorem c10_default_unreachable : ∀ (s : Int) (d1 d2 : String),
    npSelect [(decide (s < 0), "Hijau (Over/Bagus)"), (decide (s = 0), "Kuning (Match)"),
        (decide (s > 0), "Merah (Kurang)")] d1
      = npSelect [(decide (s < 0), "Hijau (Over/Bagus)"), (decide (s = 0), "Kuning (Match)"),
        (decide (s > 0), "Merah (Kurang)")] d2
    ∧ (decide (s < 0) || decide (s = 0) || decide (s > 0)) = true
    ∧ (kategoriOf s = "Hijau (Over/Bagus)" ∨ kategoriOf s = "Kuning (Match)"
       ∨ kategoriOf s = "Merah (Kurang)") := by
  intro s d1 d2
  rcases Int.lt_trichotomy s 0 with h | h | h
  · have h1 : decide (s < 0) = true := by simpa using h
    exact ⟨by simp [npSelect, h1], by simp [h1], Or.inl ((kategoriOf_spec s).1.mpr h)⟩
  · subst h
    exact ⟨by simp [npSelect], by simp, Or.inr (Or.inl ((kategoriOf_spec 0).2.1.mpr rfl))⟩
  · have h1 : decide (s < 0) = false := by simp; omega
    have h2 : decide (s = 0) = false := by simp; omega
    have h3 : decide (s > 0) = true := by simpa using h
    exact ⟨by simp [npSelect, h1, h2, h3], by simp [h3],
      Or.inr (Or.inr ((kategoriOf_spec s).2.2.mpr h))⟩

/-- C7: numeric coercion is total — a cell that fails numeric parsing
(including a missing cell) becomes 0, a cell that parses keeps its
value, and the three numeric fields of every enriched row are exactly
the coerced integers. -/
theorem c7_coercion_total : (∀ c : Cell,
      (toNumeric c = none → coerce c = 0) ∧ (∀ n : Int, toNumeric c = some n → coerce c = n))
    ∧ (∀ raw : RawRow,
        (enrichRow raw).plkumkm = coerce raw.plkumkm_cell
        ∧ (enrichRow raw).kdm = coerce raw.kdm_cell
        ∧ (enrichRow raw).selisih = coerce raw.selisih_cell)
    ∧ coerce Cell.blank = 0 ∧ coerce (Cell.text "garbage") = 0 := by
  refine ⟨?_, ?_, rfl, by decide⟩
  · intro c
    constructor
    · intro h; rw [coerce, h]; rfl
    · intro n h; rw [coerce, h]; rfl
  · intro raw
    exact ⟨rfl, rfl, rfl⟩

/-- Witness for C7: the missing cell coerces to 0. -/
theorem c7_coercion_total_witness : coerce Cell.blank = 0 :=
  (c7_coercion_total.1 Cell.blank).1 rfl

/-- C6: if any required canonical field is missing after header
normalization and mapping, the load fails with an error naming exactly
the missing fields and the full required set, and produces no table; if
none is missing, it returns the enriched table. -/
theorem c6_schema_check : ∀ (headers : List String) (rows : List RawRow),
    (missingCols headers ≠ [] →
       load_data headers rows = Except.error ⟨missingCols headers, REQUIRED⟩)
    ∧ (missingCols headers = [] → load_data headers rows = Except.ok (rows.map enrichRow))
    ∧ (∀ c, c ∈ missingCols headers ↔ c ∈ REQUIRED ∧ ¬ c ∈ mappedCols headers) := by
  intro headers rows
  refine ⟨?_, ?_, ?_⟩
  · intro h
    cases hml : missingCols headers with
    | nil => exact absurd hml h
    | cons a t =>
        rw [load_data, hml]
        rfl
  · intro h
    rw [load_data, h]
    rfl
  · intro c
    rw [missingCols, List.mem_filter]
    simp

/-- Witness for C6: loading with only an id column fails naming the four
other required fields. -/
theorem c6_schema_check_witness :
    load_data ["id sls"] [] = Except.error ⟨missingCols ["id sls"], REQUIRED⟩ :=
  (c6_schema_check ["id sls"] []).1 (by decide)

/-- C8: region names are present exactly when the id prefix is a key of
the corresponding lookup table (7 characters for kecamatan, 10 for
kelurahan); on the scenario row, id "3576010001" yields kecamatan
"Prajurit Kulon" and kelurahan "Surodinawan", and name "[12] Foo"
yields parsed code "12". -/
theorem c8_region_lookups :
    (∀ id_sls : String,
        ((kecamatanOf id_sls).isSome ↔ strTake id_sls 7 ∈ KECAMATAN_MAP.map Prod.fst)
        ∧ ((kelurahanOf id_sls).isSome ↔ strTake id_sls 10 ∈ KELURAHAN_MAP.map Prod.fst))
    ∧ (enrichRow rawScenario).kecamatan = some "Prajurit Kulon"
    ∧ (enrichRow rawScenario).kelurahan = some "Surodinawan"
    ∧ (enrichRow rawScenario).parsed_id = some "12" := by
  refine ⟨?_, by decide, by decide, by decide⟩
  intro id_sls
  exact ⟨lookupMap_isSome KECAMATAN_MAP (strTake id_sls 7),
    lookupMap_isSome KELURAHAN_MAP (strTake id_sls 10)⟩

/-- C2: on the sorted view, ranking by `selisih` with method `"min"` is
dense competition ranking: two positions share a rank exactly when they
hold equal `selisih`; each rank is one plus the index of the first
occurrence of its value in the sort order; all ranks lie in `[1, N]`;
and the reference column `[5, 5, 2]` ranked descending gives
`[1, 1, 3]`. -/
theorem c2_dense_min_ranking :
    (∀ (asc : Bool) (col : List Int) (i j : Nat)
        (hi : i < (sortColumn asc col).length) (hj : j < (sortColumn asc col).length),
        rankMin asc (sortColumn asc col) ((sortColumn asc col).get ⟨i, hi⟩)
            = rankMin asc (sortColumn asc col) ((sortColumn asc col).get ⟨j, hj⟩)
          ↔ (sortColumn asc col).get ⟨i, hi⟩ = (sortColumn asc col).get ⟨j, hj⟩)
    ∧ (∀ (asc : Bool) (col : List Int) (v : Int), v ∈ sortColumn asc col →
        rankMin asc (sortColumn asc col) v
          = (sortColumn asc col).findIdx (fun u => decide (u = v)) + 1)
    ∧ (∀ (asc : Bool) (col : List Int) (v : Int), v ∈ sortColumn asc col →
        1 ≤ rankMin asc (sortColumn asc col) v
        ∧ rankMin asc (sortColumn asc col) v ≤ (sortColumn asc col).length)
    ∧ rankingSelisih false [5, 5, 2] = [1, 1, 3] := by
  refine ⟨?_, ?_, ?_, by decide⟩
  · intro asc col i j hi hj
    exact rankMin_inj (List.get_mem _ i hi) (List.get_mem _ j hj)
  · intro asc col v hv
    exact rankMin_eq_findIdx (sortByKey_sorted (fun v => v) asc col) hv
  · intro asc col v hv
    exact rankMin_bounds hv

/-- Witness for C2: on the reference column, the rank of 2 (descending)
is one plus the index of its first occurrence. -/
theorem c2_dense_min_ranking_witness :
    rankMin false (sortColumn false [5, 5, 2]) 2
      = (sortColumn false [5, 5, 2]).findIdx (fun u => decide (u = 2)) + 1 :=
  c2_dense_min_ranking.2.1 false [5, 5, 2] 2 (by decide)

/-- A concrete enriched row whose `id_sls` is the non-numeric string
"ABC" (ids come from arbitrary spreadsheet cells). -/
def rawB : RawRow := ⟨Cell.text "ABC", Cell.text "x", Cell.num 0, Cell.num 0, Cell.num 0⟩

/-- The enriched form of `rawB`. -/
def rowB : Row := enrichRow rawB

/-- C3 counterexample: with a truly empty selected category set the
`if kategori_pilihan:` guard is falsy and the filter is skipped, so a
one-row table comes back unchanged — not empty as the claim states. -/
theorem c3_counterexample :
    applyKategori [] [rowB] = [rowB] ∧ applyKategori [] [rowB] ≠ [] :=
  ⟨rfl, by decide⟩

/-- C3 amended: an empty category selection skips the filter entirely
(empty selection behaves as "show all", the table passes through
unchanged); a non-empty selection filters by set membership. -/
theorem c3_empty_selection_skips : ∀ (cats : List String) (l : List Row),
    (cats = [] → applyKategori cats l = l)
    ∧ (cats ≠ [] → ∀ r, r ∈ applyKategori cats l ↔ r ∈ l ∧ r.kategori ∈ cats) := by
  intro cats l
  constructor
  · rintro rfl
    rfl
  · intro h r
    cases cats with
    | nil => exact absurd rfl h
    | cons a t => simp [applyKategori, List.mem_filter]

/-- Witness for C3's amended theorem: the empty selection leaves the
one-row table unchanged. -/
theorem c3_empty_selection_skips_witness : applyKategori [] [rowB] = [rowB] :=
  (c3_empty_selection_skips [] [rowB]).1 rfl

/-- The search predicate exactly as the claim sentence of C5 words it:
the raw search text case-insensitively against `area_name`, and as a
plain substring against the string form of `area_id` and against
`parsed_code` (absent treated as ""). -/
def specSearchPred (q : String) (r : Row) : Bool :=
  containsSubstr (toLowerStr r.nama_sls) (toLowerStr q) || containsSubstr r.id_sls q ||
    containsSubstr (r.parsed_id.getD "") q

/-- C5 counterexample: for query "B" and a row with `id_sls` "ABC", the
claim's predicate holds ("B" is a substring of "ABC") yet the code
excludes the row, because it matches the lowercased query "b" against
the raw, un-lowercased id. -/
theorem c5_counterexample :
    specSearchPred "B" rowB = true ∧ applySearch "B" [rowB] = [] :=
  ⟨rfl, rfl⟩

/-- C5 amended: for every non-empty query free of regex metacharacters
(pandas compiles the query as a regex, so only a metacharacter-free
query is a literal substring pattern), a row is included iff the
trimmed and lowercased query is a substring of the lowercased
`nama_sls`, or of the raw string form of `id_sls`, or of `parsed_id`
(absent treated as the empty string); any one match suffices. -/
theorem c5_search_membership : ∀ (q : String) (l : List Row) (r : Row), q ≠ "" →
    isLiteralPattern q = true →
    (r ∈ applySearch q l ↔ r ∈ l ∧
      (containsSubstr (toLowerStr r.nama_sls) (toLowerStr (trimStr q)) = true
       ∨ containsSubstr r.id_sls (toLowerStr (trimStr q)) = true
       ∨ containsSubstr (r.parsed_id.getD "") (toLowerStr (trimStr q)) = true)) := by
  intro q l r hq _
  rw [applySearch, if_neg hq, List.mem_filter]
  simp [searchPred, Bool.or_eq_true, or_assoc]

/-- Witness for C5's amended theorem: the literal query "x" finds the
row named "x". -/
theorem c5_search_membership_witness : rowB ∈ applySearch "x" [rowB] :=
  (c5_search_membership "x" [rowB] rowB (by decide) (by decide)).mpr (by decide)

/-- The category and kecamatan filters commute. -/
theorem kategori_kecamatan_comm (cats : List String) (kec : String) (l : List Row) :
    applyKecamatan kec (applyKategori cats l) = applyKategori cats (applyKecamatan kec l) := by
  by_cases h1 : cats.isEmpty = true
  · simp [applyKategori, h1]
  · have h1' : cats.isEmpty = false := by simpa using h1
    by_cases h2 : kec = "(Semua)"
    · simp [applyKecamatan, h2]
    · simp only [applyKategori, applyKecamatan, h1', if_neg h2, Bool.false_eq_true, if_false]
      exact filter_swap _ _ l

/-- The category and kelurahan filters commute. -/
theorem kategori_kelurahan_comm (cats kels : List String) (l : List Row) :
    applyKelurahan kels (applyKategori cats l) = applyKategori cats (applyKelurahan kels l) := by
  by_cases h1 : cats.isEmpty = true
  · simp [applyKategori, h1]
  · have h1' : cats.isEmpty = false := by simpa using h1
    by_cases h2 : kels.isEmpty = true
    · simp [applyKelurahan, h2]
    · have h2' : kels.isEmpty = false := by simpa using h2
      simp only [applyKategori, applyKelurahan, h1', h2', Bool.false_eq_true, if_false]
      exact filter_swap _ _ l

/-- The kecamatan and kelurahan filters commute. -/
theorem kecamatan_kelurahan_comm (kec : String) (kels : List String) (l : List Row) :
    applyKelurahan kels (applyKecamatan kec l) = applyKecamatan kec (applyKelurahan kels l) := by
  by_cases h1 : kec = "(Semua)"
  · simp [applyKecamatan, h1]
  · by_cases h2 : kels.isEmpty = true
    · simp [applyKelurahan, h2]
    · have h2' : kels.isEmpty = false := by simpa using h2
      simp only [applyKecamatan, applyKelurahan, h2', if_neg h1, Bool.false_eq_true, if_false]
      exact filter_swap _ _ l

/-- C9: the category, kecamatan and kelurahan predicates are independent
AND-ed filters — applying them in any of the six orders yields the same
result set. -/
theorem c9_filter_commutation : ∀ (kec : String) (kels cats : List String) (l : List Row),
    applyKelurahan kels (applyKecamatan kec (applyKategori cats l))
        = applyKecamatan kec (applyKelurahan kels (applyKategori cats l))
    ∧ applyKelurahan kels (applyKecamatan kec (applyKategori cats l))
        = applyKelurahan kels (applyKategori cats (applyKecamatan kec l))
    ∧ applyKelurahan kels (applyKecamatan kec (applyKategori cats l))
        = applyKategori cats (applyKelurahan kels (applyKecamatan kec l))
    ∧ applyKelurahan kels (applyKecamatan kec (applyKategori cats l))
        = applyKecamatan kec (applyKategori cats (applyKelurahan kels l))
    ∧ applyKelurahan kels (applyKecamatan kec (applyKategori cats l))
        = applyKategori cats (applyKecamatan kec (applyKelurahan kels l)) := by
  intro kec kels cats l
  have g1 := kecamatan_kelurahan_comm kec kels (applyKategori cats l)
  have g2 : applyKelurahan kels (applyKecamatan kec (applyKategori cats l))
      = applyKelurahan kels (applyKategori cats (applyKecamatan kec l)) :=
    congrArg (applyKelurahan kels) (kategori_kecamatan_comm cats kec l)
  have g3 := g2.trans (kategori_kelurahan_comm cats kels (applyKecamatan kec l))
  have g4 := g1.trans (congrArg (applyKecamatan kec) (kategori_kelurahan_comm cats kels l))
  have g5 := g3.trans (congrArg (applyKategori cats) (kecamatan_kelurahan_comm kec kels l))
  exact ⟨g1, g2, g3, g4, g5⟩

/-- C4 amended: the rollup groups the records of the region-filtered
view (kecamatan/kelurahan filters only — NOT the search- and
category-filtered records the detail table is built from), excluding
rows with an absent kelurahan, sums `plkumkm`, `kdm`, `selisih`, counts
rows, and ranks the summed `selisih` with the `"min"` method in the
shared direction. -/
theorem c4_rollup_grouping : ∀ (asc : Bool) (spec : FilterSpec) (df : List Row),
    (∀ k : String,
        (∃ p, p ∈ appRollup asc spec df ∧ p.1.kelurahan = k)
          ↔ ∃ r, r ∈ applyRegionFilters spec df ∧ r.kelurahan = some k)
    ∧ (∀ p, p ∈ appRollup asc spec df →
        p.1.plkumkm
            = (((applyRegionFilters spec df).filter
                (fun r => decide (r.kelurahan = some p.1.kelurahan))).map Row.plkumkm).sum
        ∧ p.1.kdm
            = (((applyRegionFilters spec df).filter
                (fun r => decide (r.kelurahan = some p.1.kelurahan))).map Row.kdm).sum
        ∧ p.1.selisih
            = (((applyRegionFilters spec df).filter
                (fun r => decide (r.kelurahan = some p.1.kelurahan))).map Row.selisih).sum
        ∧ p.1.jumlah_sls
            = ((applyRegionFilters spec df).filter
                (fun r => decide (r.kelurahan = some p.1.kelurahan))).length
        ∧ p.2 = rankMin asc ((kelAgg (applyRegionFilters spec df)).map KelRow.selisih)
                  p.1.selisih) := by
  intro asc spec df
  constructor
  · intro k
    constructor
    · rintro ⟨p, hp, hk⟩
      rw [appRollup, kelSummary] at hp
      obtain ⟨kr, hkr, rfl⟩ := List.mem_map.mp hp
      have hkr2 : kr ∈ kelAgg (applyRegionFilters spec df) :=
        (sortByKey_perm KelRow.selisih asc _).mem_iff.mp hkr
      rw [kelAgg] at hkr2
      obtain ⟨k0, hk0, rfl⟩ := List.mem_map.mp hkr2
      have hkk : k0 = k := hk
      subst hkk
      rw [kelKeys] at hk0
      obtain ⟨hmem, -⟩ := (dedupAux_mem [] _).mp hk0
      obtain ⟨r, hr, hrk⟩ := List.mem_filterMap.mp hmem
      exact ⟨r, hr, hrk⟩
    · rintro ⟨r, hr, hrk⟩
      have hkk : k ∈ kelKeys (applyRegionFilters spec df) := by
        rw [kelKeys]
        exact (dedupAux_mem [] _).mpr ⟨List.mem_filterMap.mpr ⟨r, hr, hrk⟩, by simp⟩
      have hagg : aggKel (applyRegionFilters spec df) k ∈ kelAgg (applyRegionFilters spec df) := by
        rw [kelAgg]
        exact List.mem_map_of_mem _ hkk
      have hg : aggKel (applyRegionFilters spec df) k
          ∈ sortByKey KelRow.selisih asc (kelAgg (applyRegionFilters spec df)) :=
        (sortByKey_perm _ _ _).mem_iff.mpr hagg
      refine ⟨(aggKel (applyRegionFilters spec df) k,
        rankMin asc
          ((sortByKey KelRow.selisih asc (kelAgg (applyRegionFilters spec df))).map
            KelRow.selisih)
          (aggKel (applyRegionFilters spec df) k).selisih), ?_, rfl⟩
      rw [appRollup, kelSummary]
      exact List.mem_map_of_mem _ hg
  · intro p hp
    rw [appRollup, kelSummary] at hp
    obtain ⟨kr, hkr, rfl⟩ := List.mem_map.mp hp
    have hkr2 : kr ∈ kelAgg (applyRegionFilters spec df) :=
      (sortByKey_perm KelRow.selisih asc _).mem_iff.mp hkr
    rw [kelAgg] at hkr2
    obtain ⟨k0, hk0, rfl⟩ := List.mem_map.mp hkr2
    refine ⟨rfl, rfl, rfl, rfl, ?_⟩
    have hperm :
        List.Perm
          ((sortByKey KelRow.selisih asc (kelAgg (applyRegionFilters spec df))).map
            KelRow.selisih)
          ((kelAgg (applyRegionFilters spec df)).map KelRow.selisih) :=
      (sortByKey_perm KelRow.selisih asc _).map KelRow.selisih
    show rankMin asc _ _ = rankMin asc _ _
    rw [rankMin, rankMin,
      hperm.countP_eq (fun w => keyLt asc w (aggKel (applyRegionFilters spec df) k0).selisih)]

/-- Two rows in the same kelurahan but different categories. -/
def rowM : Row := enrichRow ⟨Cell.text "3576010001", Cell.text "a", Cell.num 1, Cell.num 1, Cell.num 0⟩

/-- The second row: positive difference, category "Merah (Kurang)". -/
def rowK : Row := enrichRow ⟨Cell.text "3576010001", Cell.text "b", Cell.num 1, Cell.num 2, Cell.num 5⟩

/-- A two-row enriched table for the C4 counterexample. -/
def dfC4 : List Row := [rowM, rowK]

/-- A FilterSpec whose category filter keeps only the Match category. -/
def specC4 : FilterSpec := ⟨"", ["Kuning (Match)"], "(Semua)", []⟩

/-- C4 counterexample: with an active category filter, the rollup the
application computes counts both rows of the kelurahan (it groups the
region-filtered view), while grouping the records the detail table is
built from — as the claim states — would count only one; the two
rollups differ. -/
theorem c4_counterexample :
    (appRollup false specC4 dfC4).map (fun p => p.1.jumlah_sls) = [2]
    ∧ (kelSummaryOfDetailView false specC4 dfC4).map (fun p => p.1.jumlah_sls) = [1]
    ∧ appRollup false specC4 dfC4 ≠ kelSummaryOfDetailView false specC4 dfC4 :=
  ⟨rfl, rfl, by decide⟩

/-- The single rollup row the application computes on `dfC4`. -/
def pC4 : KelRow × Nat := (⟨"Surodinawan", 2, 3, 5, 2⟩, 1)

/-- Witness for C4's amended theorem: the rank attached to the single
group of `dfC4` is its min-rank among the summed differences. -/
theorem c4_rollup_grouping_witness :
    pC4.2 = rankMin false ((kelAgg (applyRegionFilters specC4 dfC4)).map KelRow.selisih)
      pC4.1.selisih :=
  ((c4_rollup_grouping false specC4 dfC4).2 pC4 (by decide)).2.2.2.2

example : parsedIdOf "[12] Foo" = some "12" := by decide
example : kecamatanOf "3576010001" = some "Prajurit Kulon" := by decide
example : kelurahanOf "3576010001" = some "Surodinawan" := by decide
example : kategoriOf (-2) = "Hijau (Over/Bagus)" := by decide
example : coerce (Cell.text "garbage") = 0 := by decide
example : coerce (Cell.text " -12 ") = -12 := by decide
example : missingCols ["ID SLS", "Nama SLS", "PLKUMKM", "KDM", "Selisih"] = [] := by decide
example : missingCols ["id sls"] = ["nama_sls", "plkumkm", "kdm", "selisih"] := by decide
example : rankingSelisih false [5, 5, 2] = [1, 1, 3] := by decide
example : rankingSelisih true [5, 5, 2] = [1, 2, 2] := by decide
example :
    applySearch "B"
      [enrichRow ⟨Cell.text "ABC", Cell.text "x", Cell.num 0, Cell.num 0, Cell.num 0⟩] = [] := by
  decide
example :
    (kelSummary false [enrichRow ⟨Cell.text "3576010001", Cell.text "a", Cell.num 1, Cell.num 2, Cell.num 0⟩,
        enrichRow ⟨Cell.text "3576010001", Cell.text "b", Cell.num 3, Cell.num 4, Cell.num 5⟩]).map
      (fun p => (p.1.kelurahan, p.1.selisih, p.1.jumlah_sls, p.2))
    = [("Surodinawan", 5, 2, 1)] := by decide
